import Mathlib

/-!
# Verification of the pollination/guides example scripts

A shallow embedding, in Lean 4, of the three Python source files of the
`pollination/guides` repository:

* `getting-started/rest-api/pollination.py` — request payload dataclasses and
  the `PollinationClient` HTTP wrapper (route templates, per-endpoint methods,
  the two-step artifact upload);
* `getting-started/rest-api/main.py` — the orchestration script (project
  creation, recipe attachment, uploads, job submission, the 5×60s polling
  loop, run listing and output download);
* `getting-started/get_user.py` — the ad-hoc user-info script.

Python strings are Lean `String`s, JSON-like dicts are an inductive `Json`
value, HTTP traffic is modelled by an oracle `send : Request → Response`, and
exceptions (KeyError, HTTPStatusError, …) are `Except String`.
-/

/-- JSON-documents as produced by dataclass/dict serialisation.  The `ext`
constructor stands for a non-JSON Python object (for instance a `queenbee`
pydantic model left in place, or deep-copied, by `dataclasses.asdict`);
`ext`s carry an identity so that distinct objects stay distinct. -/
inductive Json where
  | str (s : String)
  | bool (b : Bool)
  | num (n : Int)
  | arr (xs : List Json)
  | obj (fields : List (String × Json))
  | ext (id : Nat)
deriving Repr

/-- `d[k]` lookup on a JSON object (first binding wins, as in a Python dict
whose keys are unique). Returns `none` when the key is absent or the value is
not an object (Python: `KeyError`/`TypeError`). -/
def Json.lookup : Json → String → Option Json
  | .obj fields, k => fields.lookup k
  | _, _ => none

/-- `d[k] = v` update on a JSON object: replaces the value in place when the
key is present (keeping its position, as a Python dict does) and appends the
binding otherwise.  On a non-object the update is the identity (unreachable
in the embedded code). -/
def Json.set : Json → String → Json → Json
  | .obj fields, k, v =>
      .obj (if (fields.lookup k).isSome
            then fields.map (fun p => if p.1 = k then (k, v) else p)
            else fields ++ [(k, v)])
  | j, _, _ => j

/-- A `queenbee` `JobPathArgument` as seen from this repository: an opaque
external object (`objId` is its identity) together with the JSON value its
`to_dict()` method produces. -/
structure JobPathArgument where
  objId : Nat
  dictVal : Json
deriving Repr

namespace Payload

/-- `Payload.Create` — payload to create a Pollination project
(fields `name`, `description`, `public`). -/
structure Create where
  name : String
  description : String
  public : Bool
deriving Repr

/-- `Payload.Create.to_dict` = `dataclasses.asdict(self)`: the
field-name-to-value mapping, in field order. -/
def Create.to_dict (p : Create) : Json :=
  .obj [("name", .str p.name), ("description", .str p.description),
        ("public", .bool p.public)]

/-- `Payload.RecipeFilter` — payload for adding a recipe to a project
(fields `owner`, `name`, `tag`). -/
structure RecipeFilter where
  owner : String
  name : String
  tag : String
deriving Repr

/-- `Payload.RecipeFilter.to_dict` = `dataclasses.asdict(self)`. -/
def RecipeFilter.to_dict (p : RecipeFilter) : Json :=
  .obj [("owner", .str p.owner), ("name", .str p.name), ("tag", .str p.tag)]

/-- `Payload.Artifact` — payload for adding a file to a project
(single field `key`). -/
structure Artifact where
  key : String
deriving Repr

/-- `Payload.Artifact.to_dict` = `dataclasses.asdict(self)`. -/
def Artifact.to_dict (p : Artifact) : Json :=
  .obj [("key", .str p.key)]

/-- `Payload.Job` — minimal payload for creating a job: a recipe `source`
URL and a list of argument groups (a list of lists of `JobPathArgument`). -/
structure Job where
  source : String
  arguments : List (List JobPathArgument)
deriving Repr

/-- The `dataclasses.asdict(self)` call inside `Job.to_dict`: a dict with the
`source` string and, under `arguments`, the nested lists with the (deep-copied)
`JobPathArgument` objects left as opaque non-JSON values — this slot is
overwritten immediately afterwards. -/
def Job.asdict (j : Job) : Json :=
  .obj [("source", .str j.source),
        ("arguments",
          .arr (j.arguments.map (fun g => .arr (g.map (fun a => .ext a.objId)))))]

/-- `Payload.Job.to_dict`: `d = asdict(self)`, then the nested for-loops build
`args` by appending `arg.to_dict()` group by group, then `d['arguments'] = args`. -/
def Job.to_dict (j : Job) : Json :=
  let d := j.asdict
  let args := j.arguments.foldl
    (fun acc group =>
      acc ++ [Json.arr (group.foldl (fun g a => g ++ [a.dictVal]) [])])
    []
  d.set "arguments" (.arr args)

end Payload

/-!
## `str.format_map`

The subset of Python's `str.format_map` exercised by the route templates:
literal characters are copied, `{key}` is replaced by the mapping's value for
`key` (the value is *not* re-scanned), a missing key is a `KeyError` and a
bare `}` in literal position or an unterminated `{` is a `ValueError` — all
failures are `none`.
-/

/-- Character-level interpreter for `format_map`.  The second argument is
`none` in literal mode and `some acc` while scanning a `{key}` (with the key
characters accumulated in reverse). -/
def formatMapAux (m : String → Option String) :
    List Char → Option (List Char) → Option (List Char)
  | [], none => some []
  | [], some _ => none
  | c :: rest, none =>
      if c = '{' then formatMapAux m rest (some [])
      else if c = '}' then none
      else (formatMapAux m rest none).map (c :: ·)
  | c :: rest, some acc =>
      if c = '}' then
        match m (String.mk acc.reverse) with
        | some v => (formatMapAux m rest none).map (v.data ++ ·)
        | none => none
      else formatMapAux m rest (some (c :: acc))

/-- `template.format_map(m)`. -/
def format_map (template : String) (m : String → Option String) : Option String :=
  (formatMapAux m template.data none).map String.mk

/-!
## HTTP model

A `Request` records what an HTTP call would put on the wire; the network
itself is an oracle `send : Request → Response`.  Responses carry a status
code and a parsed JSON body.
-/

/-- An outgoing HTTP request. -/
structure Request where
  method : String
  url : String
  headers : List (String × String)
  jsonBody : Option Json := none
  formData : Option Json := none
  fileUpload : Option (String × String) := none
deriving Repr

/-- An HTTP response: status code and parsed JSON body (`res.json()`). -/
structure Response where
  status_code : Nat
  body : Json
deriving Repr

/-- `httpx.Response.raise_for_status()`: raises `HTTPStatusError` for 4xx
client errors and 5xx server errors, and returns `None` otherwise. -/
def raise_for_status (r : Response) : Except String (Option Response) :=
  if 400 ≤ r.status_code ∧ r.status_code < 600 then
    .error ("HTTPStatusError " ++ toString r.status_code)
  else
    .ok none

namespace Payload

/-- `Payload.Artifact.upload`: opens the local file named `self.key`
(raising if it does not exist — `fs` is the local directory contents) and
POSTs it to `url` with the storage-authorisation `fields` as form data,
through a fresh `httpx.post` call that carries no headers of any client. -/
def Artifact.upload (a : Artifact) (fs : String → Option String)
    (send : Request → Response) (url : String) (fields : Json) :
    Except String (Request × Response) :=
  match fs a.key with
  | none => .error ("FileNotFoundError " ++ a.key)
  | some content =>
      let req : Request :=
        { method := "POST", url := url, headers := [],
          formData := some fields, fileUpload := some (a.key, content) }
      .ok (req, send req)

end Payload

namespace PollinationClient

-- `PollinationClient.Routes`: the Pollination API route templates, built
-- exactly as in the source.
namespace Routes

def var_name : String := "/{name}"
def var_owner : String := "/{owner}"
def var_job_id : String := "/{job_id}"
def var_run_id : String := "/{run_id}"
def var_output_name : String := "/{output_name}"

def artifacts : String := "/artifacts"
def downloads : String := "/downloads"
def filters : String := "/filters"
def jobs : String := "/jobs"
def outputs : String := "/outputs"
def recipes : String := "/recipes"
def runs : String := "/runs"
def user : String := "/user"

def accounts : String := "/accounts"
def accounts_name : String := accounts ++ var_name

def projects : String := "/projects"
def project_create : String := projects ++ var_owner
def project_add_recipe : String := projects ++ var_owner ++ var_name ++ recipes ++ filters
def project_add_artifact : String := projects ++ var_owner ++ var_name ++ artifacts
def project_jobs : String := projects ++ var_owner ++ var_name ++ jobs
def project_job_by_id : String := project_jobs ++ var_job_id
def project_job_artifacts : String := project_job_by_id ++ artifacts
def project_job_artifacts_download : String := project_job_artifacts ++ downloads
def project_runs : String := projects ++ var_owner ++ var_name ++ runs
def project_run_output : String := project_runs ++ var_run_id ++ outputs ++ var_output_name

end Routes
end PollinationClient

/-- The `PollinationClient` state: an `httpx.Client` subtype holding a base
URL, default headers, and the organization name. -/
structure PollinationClient where
  base_url : String
  headers : List (String × String)
  organization : String
deriving Repr

namespace PollinationClient

/-- The fixed Pollination API host. -/
def apiBaseUrl : String := "https://api.pollination.cloud"

/-- `headers[k] = v` on httpx headers: replace in place when present,
append otherwise. -/
def headersSet (hs : List (String × String)) (k v : String) :
    List (String × String) :=
  if (hs.lookup k).isSome
  then hs.map (fun p => if p.1 = k then (k, v) else p)
  else hs ++ [(k, v)]

/-- `PollinationClient.__init__`.  `env` is `os.environ`;
`kwargs_base_url` and `kwargs_headers` are what a caller may have passed
through to the `httpx.Client` superclass constructor.  The superclass sets
`base_url` and `headers` from the kwargs, then `__init__` unconditionally
overwrites `self.base_url`, then reads `POLLINATION_API_KEY` (a missing
variable is a `KeyError`) into the `x-pollination-token` header, then reads
`POLLINATION_ORG` into `self.organization`.  Constructing the client issues
no HTTP request (the function has no access to the network oracle). -/
def init (env : String → Option String) (kwargs_base_url : Option String)
    (kwargs_headers : List (String × String)) :
    Except String PollinationClient :=
  -- super().__init__(*args, **kwargs)
  let base0 : String := kwargs_base_url.getD ""
  let headers0 : List (String × String) := kwargs_headers
  -- self.base_url = 'https://api.pollination.cloud'
  let base1 : String := apiBaseUrl
  -- self.headers['x-pollination-token'] = os.environ['POLLINATION_API_KEY']
  match env "POLLINATION_API_KEY" with
  | none => .error "KeyError: POLLINATION_API_KEY"
  | some key =>
      let headers1 := headersSet headers0 "x-pollination-token" key
      -- self.organization = os.environ['POLLINATION_ORG']
      match env "POLLINATION_ORG" with
      | none => .error "KeyError: POLLINATION_ORG"
      | some org =>
          let _ := base0
          .ok { base_url := base1, headers := headers1, organization := org }

/-- `httpx.Client.get`: issues a GET of `base_url ++ endpoint` carrying the
client's default headers, and returns the request together with the oracle's
response. -/
def get (c : PollinationClient) (send : Request → Response) (endpoint : String) :
    Request × Response :=
  let req : Request :=
    { method := "GET", url := c.base_url ++ endpoint, headers := c.headers }
  (req, send req)

/-- `httpx.Client.post` with a `json=` body. -/
def post (c : PollinationClient) (send : Request → Response) (endpoint : String)
    (body : Json) : Request × Response :=
  let req : Request :=
    { method := "POST", url := c.base_url ++ endpoint, headers := c.headers,
      jsonBody := some body }
  (req, send req)

/-- The mapping `dict(name=self.organization)`. -/
def orgMap (c : PollinationClient) : String → Option String :=
  fun k => if k = "name" then some c.organization else none

/-- The mapping `dict(owner=self.organization)`. -/
def ownerMap (c : PollinationClient) : String → Option String :=
  fun k => if k = "owner" then some c.organization else none

/-- The mapping `dict(owner=self.organization, name=project_name)`. -/
def ownerNameMap (c : PollinationClient) (project_name : String) :
    String → Option String :=
  fun k =>
    if k = "owner" then some c.organization
    else if k = "name" then some project_name
    else none

/-- The mapping `dict(owner=self.organization, name=project_name, job_id=job_id)`. -/
def ownerNameJobMap (c : PollinationClient) (project_name job_id : String) :
    String → Option String :=
  fun k =>
    if k = "owner" then some c.organization
    else if k = "name" then some project_name
    else if k = "job_id" then some job_id
    else none

/-- The mapping of `get_run_output`:
`dict(owner=…, name=…, run_id=…, output_name=…)`. -/
def runOutputMap (c : PollinationClient) (project_name run_id output_name : String) :
    String → Option String :=
  fun k =>
    if k = "owner" then some c.organization
    else if k = "name" then some project_name
    else if k = "run_id" then some run_id
    else if k = "output_name" then some output_name
    else none

/-- `PollinationClient._org_endpoint` (a `KeyError` from `format_map` would
propagate, hence the `Option`). -/
def org_endpoint (c : PollinationClient) : Option String :=
  format_map Routes.accounts_name c.orgMap

end PollinationClient

namespace PollinationClient

/-- `PollinationClient.get_organization`: GET on the formatted accounts
endpoint (`none` models a propagated `KeyError` from `format_map`). -/
def get_organization (c : PollinationClient) (send : Request → Response) :
    Option (Request × Response) :=
  c.org_endpoint.map (fun e => c.get send e)

/-- `PollinationClient.create_project`. -/
def create_project (c : PollinationClient) (send : Request → Response)
    (body : Payload.Create) : Option (Request × Response) :=
  (format_map Routes.project_create c.ownerMap).map
    (fun e => c.post send e body.to_dict)

/-- `PollinationClient.add_recipe_to_project`. -/
def add_recipe_to_project (c : PollinationClient) (send : Request → Response)
    (project_name : String) (body : Payload.RecipeFilter) :
    Option (Request × Response) :=
  (format_map Routes.project_add_recipe (c.ownerNameMap project_name)).map
    (fun e => c.post send e body.to_dict)

/-- `PollinationClient.add_file_to_project`: POSTs the artifact payload to
the project's artifacts endpoint, reads `url` and `fields` from the JSON
response, uploads the local file to that signed URL via `Artifact.upload`,
then returns the storage response if its status is 204 and otherwise the
result of `raise_for_status`.  The first component is the list of HTTP
requests issued before the call returned or raised. -/
def add_file_to_project (c : PollinationClient) (send : Request → Response)
    (fs : String → Option String) (project_name : String)
    (body : Payload.Artifact) :
    List Request × Except String (Option Response) :=
  match format_map Routes.project_add_artifact (c.ownerNameMap project_name) with
  | none => ([], .error "KeyError")
  | some endpoint =>
      let req1 := (c.post send endpoint body.to_dict).1
      let res1 := (c.post send endpoint body.to_dict).2
      match res1.body.lookup "url", res1.body.lookup "fields" with
      | some (.str url), some fields =>
          match body.upload fs send url fields with
          | .error e => ([req1], .error e)
          | .ok (req2, res2) =>
              ([req1, req2],
                if res2.status_code = 204 then .ok (some res2)
                else raise_for_status res2)
      | _, _ => ([req1], .error "KeyError")

/-- `PollinationClient.create_job`. -/
def create_job (c : PollinationClient) (send : Request → Response)
    (project_name : String) (body : Payload.Job) : Option (Request × Response) :=
  (format_map Routes.project_jobs (c.ownerNameMap project_name)).map
    (fun e => c.post send e body.to_dict)

/-- `PollinationClient.get_job`. -/
def get_job (c : PollinationClient) (send : Request → Response)
    (project_name job_id : String) : Option (Request × Response) :=
  (format_map Routes.project_job_by_id (c.ownerNameJobMap project_name job_id)).map
    (fun e => c.get send e)

/-- `PollinationClient.list_jobs`. -/
def list_jobs (c : PollinationClient) (send : Request → Response)
    (project_name : String) : Option (Request × Response) :=
  (format_map Routes.project_jobs (c.ownerNameMap project_name)).map
    (fun e => c.get send e)

/-- `PollinationClient.list_job_artifacts`. -/
def list_job_artifacts (c : PollinationClient) (send : Request → Response)
    (project_name job_id : String) : Option (Request × Response) :=
  (format_map Routes.project_job_artifacts
      (c.ownerNameJobMap project_name job_id)).map
    (fun e => c.get send e)

/-- `PollinationClient.get_job_artifact_link`: formats the download route and
appends the f-string query `?path={artifact_path}`. -/
def get_job_artifact_link (c : PollinationClient) (send : Request → Response)
    (project_name job_id artifact_path : String) : Option (Request × Response) :=
  (format_map Routes.project_job_artifacts_download
      (c.ownerNameJobMap project_name job_id)).map
    (fun e => c.get send (e ++ "?path=" ++ artifact_path))

/-- `PollinationClient.get_runs`: formats the runs route and appends the
f-string query `?job_id={job_id}`. -/
def get_runs (c : PollinationClient) (send : Request → Response)
    (project_name job_id : String) : Option (Request × Response) :=
  (format_map Routes.project_runs (c.ownerNameMap project_name)).map
    (fun e => c.get send (e ++ "?job_id=" ++ job_id))

/-- `PollinationClient.get_run_output`. -/
def get_run_output (c : PollinationClient) (send : Request → Response)
    (project_name run_id output_name : String) : Option (Request × Response) :=
  (format_map Routes.project_run_output
      (c.runOutputMap project_name run_id output_name)).map
    (fun e => c.get send e)

end PollinationClient

/-!
## The orchestration script (`main.py`)

The script's observable behaviour is a list of `Event`s.  Polling statuses
are indexed by attempt (`statuses i` is the status string parsed from the
`i`-th `get_job` response: `res.json()['status']['status']`), since the
same request yields different responses over time.
-/

/-- One observable step of the orchestration script. -/
inductive Event where
  | getJobStatus (project_name job_id : String)
  | println (msg : String)
  | sleep (sec : Nat)
  | exitScript
  | getRunsCall (project_name job_id : String)
  | getRunOutputCall (project_name run_id output_name : String)
  | saveFile (url : String) (filename : String)
deriving Repr, DecidableEq

/-- How the polling loop ended. -/
inductive PollOutcome where
  | completed
  | cancelled
  | exhausted
deriving Repr, DecidableEq

namespace Main

/-- `remaining_polls = 5`. -/
def remaining_polls : Nat := 5

/-- `wait_sec = 60`. -/
def wait_sec : Nat := 60

/-- The `while remaining_polls > 0` loop of `main.py`: fetch the job status;
on `'Completed'` print and `break`; on `'Cancelled'` print and `exit()`;
otherwise sleep `wait_sec`, decrement, print the remaining-attempt count and
continue.  `i` is the index of the next status fetch and `r` the current
`remaining_polls` value. -/
def pollLoop (project_name job_id : String) (statuses : Nat → String) :
    Nat → Nat → List Event × PollOutcome
  | _, 0 => ([], .exhausted)
  | i, r + 1 =>
      let s := statuses i
      if s = "Completed" then
        ([.getJobStatus project_name job_id, .println "Job finished!"],
         .completed)
      else if s = "Cancelled" then
        ([.getJobStatus project_name job_id, .println "Job cancelled!"],
         .cancelled)
      else
        let (evs, out) := pollLoop project_name job_id statuses (i + 1) r
        ([.getJobStatus project_name job_id, .sleep wait_sec,
          .println (toString r ++ " attempts remaining")] ++ evs,
         out)

/-- The body of the `for run in body['resources']` loop: reads `run['id']`
and `run['status']['outputs'][0]['name']` (a missing key or an empty outputs
list raises), fetches the download link through
`client.get_run_output`, and saves the retrieved content to
`f'{run_id}-{run_output_name}.zip'`. -/
def processRun (c : PollinationClient) (send : Request → Response)
    (project_name : String) (run : Json) : Except String (List Event) :=
  match run.lookup "id" with
  | some (.str run_id) =>
      match run.lookup "status" with
      | some st =>
          match st.lookup "outputs" with
          | some (.arr (o :: _)) =>
              match o.lookup "name" with
              | some (.str output_name) =>
                  match c.get_run_output send project_name run_id output_name with
                  | some (_, res) =>
                      match res.body with
                      | .str url =>
                          .ok [.getRunOutputCall project_name run_id output_name,
                               .saveFile url (run_id ++ "-" ++ output_name ++ ".zip")]
                      | _ => .error "TypeError: url"
                  | none => .error "KeyError"
              | _ => .error "KeyError: name"
          | some (.arr []) => .error "IndexError: outputs"
          | _ => .error "KeyError: outputs"
      | none => .error "KeyError: status"
  | _ => .error "KeyError: id"

/-- The `for run in body['resources']` loop itself. -/
def downloadRuns (c : PollinationClient) (send : Request → Response)
    (project_name : String) : List Json → List Event × Except String Unit
  | [] => ([], .ok ())
  | run :: rest =>
      match processRun c send project_name run with
      | .error e => ([], .error e)
      | .ok evs =>
          let (evs2, r) := downloadRuns c send project_name rest
          (evs ++ evs2, r)

/-- What `main.py` does after the polling loop: list the job's runs and run
the download loop over `body['resources']`. -/
def scriptTail (c : PollinationClient) (send : Request → Response)
    (project_name job_id : String) : List Event × Except String Unit :=
  match c.get_runs send project_name job_id with
  | none => ([], .error "KeyError")
  | some (_, res) =>
      match res.body.lookup "resources" with
      | some (.arr runsList) =>
          let (evs, r) := downloadRuns c send project_name runsList
          (Event.getRunsCall project_name job_id :: evs, r)
      | _ => ([.getRunsCall project_name job_id], .error "KeyError: resources")

/-- The poll-then-download portion of `main.py`: run the polling loop with
`remaining_polls = 5`; on `'Cancelled'` the script `exit()`s and nothing else
happens; on `break` (completed) and on silent exhaustion alike, control falls
through to `scriptTail`. -/
def pollAndDownload (c : PollinationClient) (send : Request → Response)
    (project_name job_id : String) (statuses : Nat → String) :
    List Event × Except String Unit :=
  let (pollEvs, outcome) := pollLoop project_name job_id statuses 0 remaining_polls
  match outcome with
  | .cancelled => (pollEvs ++ [.exitScript], .ok ())
  | _ =>
      let (evs, r) := scriptTail c send project_name job_id
      (pollEvs ++ evs, r)

end Main

/-!
## Derived notions used by the statements
-/

/-- A job status on which the polling loop stops: `'Completed'` or
`'Cancelled'`. -/
def isTerminal (s : String) : Prop :=
  s = "Completed" ∨ s = "Cancelled"

instance (s : String) : Decidable (isTerminal s) := by
  unfold isTerminal
  infer_instance

namespace Main

/-- The observable trace of `n` consecutive non-terminal polling iterations
entered with `remaining_polls = r`: each iteration fetches the status, sleeps
`wait_sec` seconds and prints the decremented remaining-attempt count. -/
def nonTermEvents (project_name job_id : String) : Nat → Nat → List Event
  | _, 0 => []
  | r, n + 1 =>
      [Event.getJobStatus project_name job_id, Event.sleep wait_sec,
       Event.println (toString (r - 1) ++ " attempts remaining")]
        ++ nonTermEvents project_name job_id (r - 1) n

end Main

/-- The formatted artifacts endpoint of a project, written out. -/
def artifactsEndpoint (c : PollinationClient) (project_name : String) : String :=
  "/projects/" ++ c.organization ++ "/" ++ project_name ++ "/artifacts"

/-- The first (authenticated) request `add_file_to_project` issues: a POST of
the artifact payload to the project's artifacts endpoint with the client's
default headers. -/
def artifactsPostReq (c : PollinationClient) (project_name : String)
    (body : Payload.Artifact) : Request :=
  { method := "POST", url := c.base_url ++ artifactsEndpoint c project_name,
    headers := c.headers, jsonBody := some body.to_dict }

/-- The second (storage) request: a POST of the local file's content to the
signed URL, with the storage form fields and no headers at all. -/
def storageReq (key content url : String) (fields : Json) : Request :=
  { method := "POST", url := url, headers := [],
    formData := some fields, fileUpload := some (key, content) }

/-!
## Concrete inputs for witnesses
-/

/-- A process environment holding both required variables. -/
def envT : String → Option String :=
  fun k =>
    if k = "POLLINATION_API_KEY" then some "tok"
    else if k = "POLLINATION_ORG" then some "acme" else none

/-- An empty process environment. -/
def envNone : String → Option String := fun _ => none

/-- The client `PollinationClient.init envT none []` constructs. -/
def cT : PollinationClient :=
  { base_url := PollinationClient.apiBaseUrl,
    headers := [("x-pollination-token", "tok")], organization := "acme" }

/-- The signed storage URL used by the concrete scenarios. -/
def storageUrl : String := "https://storage.example/bucket"

/-- A network oracle whose create-artifact response carries a signed URL and
fields and whose storage endpoint answers 200 (success-but-not-204). -/
def send200 : Request → Response :=
  fun req =>
    if req.url = storageUrl then { status_code := 200, body := .obj [] }
    else
      { status_code := 200,
        body := .obj [("url", .str storageUrl), ("fields", .obj [("sig", .str "s")])] }

/-- As `send200`, but the storage endpoint answers 204. -/
def send204 : Request → Response :=
  fun req =>
    if req.url = storageUrl then { status_code := 204, body := .obj [] }
    else
      { status_code := 200,
        body := .obj [("url", .str storageUrl), ("fields", .obj [("sig", .str "s")])] }

/-- A local directory holding the single file `model.hbjson`. -/
def fsT : String → Option String :=
  fun k => if k = "model.hbjson" then some "filedata" else none

/-- A concrete run resource as `get_runs` would return it. -/
def runT : Json :=
  .obj [("id", .str "r1"),
        ("status", .obj [("outputs", .arr [.obj [("name", .str "res")]])])]

/-- The URL of the `get_runs` request for project `demo` and job `j1`. -/
def runsReqUrl : String :=
  PollinationClient.apiBaseUrl ++ "/projects/acme/demo/runs?job_id=j1"

/-- A network oracle for the run-download scenario: listing runs yields the
single resource `runT`, and every other request answers with a plain download
URL string. -/
def sendRuns : Request → Response :=
  fun req =>
    if req.url = runsReqUrl then
      { status_code := 200, body := .obj [("resources", .arr [runT])] }
    else { status_code := 200, body := .str "https://download.example/file" }

/-- As `send200`, but the storage endpoint answers 500. -/
def send500 : Request → Response :=
  fun req =>
    if req.url = storageUrl then { status_code := 500, body := .obj [] }
    else
      { status_code := 200,
        body := .obj [("url", .str storageUrl), ("fields", .obj [("sig", .str "s")])] }

/-- A status sequence that never reaches a terminal state. -/
def statusesRun : Nat → String := fun _ => "Running"

/-- A status sequence that completes on the third poll. -/
def statusesDone : Nat → String := fun i => if i = 2 then "Completed" else "Running"

/-- Run-id accessor for the concrete run-download scenario. -/
def ridT : Json → String := fun _ => "r1"

/-- Output-name accessor for the concrete run-download scenario. -/
def outnT : Json → String := fun _ => "res"

/-- Download-URL accessor for the concrete run-download scenario. -/
def urlT : Json → String := fun _ => "https://download.example/file"

/-- The GET request `get_runs` issues for a project and job. -/
def runsGetReq (c : PollinationClient) (pn jid : String) : Request :=
  { method := "GET",
    url := c.base_url
      ++ ("/projects/" ++ c.organization ++ "/" ++ pn ++ "/runs"
           ++ "?job_id=" ++ jid),
    headers := c.headers }

/-- The GET request `get_run_output` issues for a run output. -/
def runOutputGetReq (c : PollinationClient) (pn rid outn : String) : Request :=
  { method := "GET",
    url := c.base_url
      ++ ("/projects/" ++ c.organization ++ "/" ++ pn ++ "/runs/" ++ rid
           ++ "/outputs/" ++ outn),
    headers := c.headers }

/-!
## Theorems

### Route formatting
-/

lemma org_endpoint_eq (c : PollinationClient) :
    c.org_endpoint = some ("/accounts/" ++ c.organization) := by
  show some (String.mk _) = _
  rw [Option.some_inj]
  apply String.ext
  simp [String.data_append]

lemma fm_project_create (c : PollinationClient) :
    format_map PollinationClient.Routes.project_create c.ownerMap
      = some ("/projects/" ++ c.organization) := by
  show some (String.mk _) = _
  rw [Option.some_inj]
  apply String.ext
  simp [String.data_append]

lemma fm_project_add_recipe (c : PollinationClient) (pn : String) :
    format_map PollinationClient.Routes.project_add_recipe (c.ownerNameMap pn)
      = some ("/projects/" ++ c.organization ++ "/" ++ pn ++ "/recipes/filters") := by
  show some (String.mk _) = _
  rw [Option.some_inj]
  apply String.ext
  simp [String.data_append]

lemma fm_project_add_artifact (c : PollinationClient) (pn : String) :
    format_map PollinationClient.Routes.project_add_artifact (c.ownerNameMap pn)
      = some ("/projects/" ++ c.organization ++ "/" ++ pn ++ "/artifacts") := by
  show some (String.mk _) = _
  rw [Option.some_inj]
  apply String.ext
  simp [String.data_append]

lemma fm_project_jobs (c : PollinationClient) (pn : String) :
    format_map PollinationClient.Routes.project_jobs (c.ownerNameMap pn)
      = some ("/projects/" ++ c.organization ++ "/" ++ pn ++ "/jobs") := by
  show some (String.mk _) = _
  rw [Option.some_inj]
  apply String.ext
  simp [String.data_append]

lemma fm_project_job_by_id (c : PollinationClient) (pn jid : String) :
    format_map PollinationClient.Routes.project_job_by_id (c.ownerNameJobMap pn jid)
      = some ("/projects/" ++ c.organization ++ "/" ++ pn ++ "/jobs/" ++ jid) := by
  show some (String.mk _) = _
  rw [Option.some_inj]
  apply String.ext
  simp [String.data_append]

lemma fm_project_job_artifacts (c : PollinationClient) (pn jid : String) :
    format_map PollinationClient.Routes.project_job_artifacts
        (c.ownerNameJobMap pn jid)
      = some ("/projects/" ++ c.organization ++ "/" ++ pn ++ "/jobs/" ++ jid
               ++ "/artifacts") := by
  show some (String.mk _) = _
  rw [Option.some_inj]
  apply String.ext
  simp [String.data_append]

lemma fm_project_job_artifacts_download (c : PollinationClient) (pn jid : String) :
    format_map PollinationClient.Routes.project_job_artifacts_download
        (c.ownerNameJobMap pn jid)
      = some ("/projects/" ++ c.organization ++ "/" ++ pn ++ "/jobs/" ++ jid
               ++ "/artifacts/downloads") := by
  show some (String.mk _) = _
  rw [Option.some_inj]
  apply String.ext
  simp [String.data_append]

lemma fm_project_runs (c : PollinationClient) (pn : String) :
    format_map PollinationClient.Routes.project_runs (c.ownerNameMap pn)
      = some ("/projects/" ++ c.organization ++ "/" ++ pn ++ "/runs") := by
  show some (String.mk _) = _
  rw [Option.some_inj]
  apply String.ext
  simp [String.data_append]

lemma fm_project_run_output (c : PollinationClient) (pn rid outn : String) :
    format_map PollinationClient.Routes.project_run_output
        (c.runOutputMap pn rid outn)
      = some ("/projects/" ++ c.organization ++ "/" ++ pn ++ "/runs/" ++ rid
               ++ "/outputs/" ++ outn) := by
  show some (String.mk _) = _
  rw [Option.some_inj]
  apply String.ext
  simp [String.data_append]

lemma brace_free_append {a b : String} (ha : '{' ∉ a.data) (hb : '{' ∉ b.data) :
    '{' ∉ (a ++ b).data := by
  simp [String.data_append, not_or]
  exact ⟨ha, hb⟩

lemma add_file_trace_head (c : PollinationClient) (send : Request → Response)
    (fs : String → Option String) (pn : String) (bodyA : Payload.Artifact)
    (u : String)
    (hu : format_map PollinationClient.Routes.project_add_artifact
            (c.ownerNameMap pn) = some u) :
    (c.add_file_to_project send fs pn bodyA).1.head?
      = some (c.post send u bodyA.to_dict).1 := by
  unfold PollinationClient.add_file_to_project
  rw [hu]
  split
  next heq => cases heq
  next v heq =>
    injection heq with h
    subst h
    repeat' first
      | simp_all
      | split

/-- **C3.** For every `PollinationClient` endpoint method and all brace-free
string inputs, the formatted endpoint path substitutes every path parameter
of its route template (`{owner}`, `{name}`, `{job_id}`, `{run_id}`,
`{output_name}`) by the corresponding argument or the client's organization,
and the resulting URL contains no `\x7b` at all — in particular no
unsubstituted placeholder. -/
theorem routes_substitute_all_parameters
    (c : PollinationClient) (send : Request → Response)
    (fs : String → Option String)
    (pn jid rid outn ap : String)
    (bodyC : Payload.Create) (bodyR : Payload.RecipeFilter)
    (bodyJ : Payload.Job) (bodyA : Payload.Artifact)
    (horg : '{' ∉ c.organization.data) (hpn : '{' ∉ pn.data)
    (hjid : '{' ∉ jid.data) (hrid : '{' ∉ rid.data)
    (houtn : '{' ∉ outn.data) (hap : '{' ∉ ap.data) :
    (∃ u, c.get_organization send = some (c.get send u) ∧ '{' ∉ u.data)
    ∧ (∃ u, c.create_project send bodyC = some (c.post send u bodyC.to_dict)
        ∧ '{' ∉ u.data)
    ∧ (∃ u, c.add_recipe_to_project send pn bodyR
          = some (c.post send u bodyR.to_dict) ∧ '{' ∉ u.data)
    ∧ (∃ u, format_map PollinationClient.Routes.project_add_artifact
            (c.ownerNameMap pn) = some u
        ∧ (c.add_file_to_project send fs pn bodyA).1.head?
            = some (c.post send u bodyA.to_dict).1
        ∧ '{' ∉ u.data)
    ∧ (∃ u, c.create_job send pn bodyJ = some (c.post send u bodyJ.to_dict)
        ∧ '{' ∉ u.data)
    ∧ (∃ u, c.get_job send pn jid = some (c.get send u) ∧ '{' ∉ u.data)
    ∧ (∃ u, c.list_jobs send pn = some (c.get send u) ∧ '{' ∉ u.data)
    ∧ (∃ u, c.list_job_artifacts send pn jid = some (c.get send u)
        ∧ '{' ∉ u.data)
    ∧ (∃ u, c.get_job_artifact_link send pn jid ap = some (c.get send u)
        ∧ '{' ∉ u.data)
    ∧ (∃ u, c.get_runs send pn jid = some (c.get send u) ∧ '{' ∉ u.data)
    ∧ (∃ u, c.get_run_output send pn rid outn = some (c.get send u)
        ∧ '{' ∉ u.data) := by
  refine ⟨?_, ?_, ?_, ?_, ?_, ?_, ?_, ?_, ?_, ?_, ?_⟩
  · refine ⟨"/accounts/" ++ c.organization, ?_, ?_⟩
    · simp [PollinationClient.get_organization, org_endpoint_eq]
    · exact brace_free_append (by decide) horg
  · refine ⟨"/projects/" ++ c.organization, ?_, ?_⟩
    · simp [PollinationClient.create_project, fm_project_create]
    · exact brace_free_append (by decide) horg
  · refine ⟨"/projects/" ++ c.organization ++ "/" ++ pn ++ "/recipes/filters",
      ?_, ?_⟩
    · simp [PollinationClient.add_recipe_to_project, fm_project_add_recipe]
    · exact brace_free_append (brace_free_append (brace_free_append
        (brace_free_append (by decide) horg) (by decide)) hpn) (by decide)
  · refine ⟨"/projects/" ++ c.organization ++ "/" ++ pn ++ "/artifacts",
      fm_project_add_artifact c pn, ?_, ?_⟩
    · exact add_file_trace_head c send fs pn bodyA _ (fm_project_add_artifact c pn)
    · exact brace_free_append (brace_free_append (brace_free_append
        (brace_free_append (by decide) horg) (by decide)) hpn) (by decide)
  · refine ⟨"/projects/" ++ c.organization ++ "/" ++ pn ++ "/jobs", ?_, ?_⟩
    · simp [PollinationClient.create_job, fm_project_jobs]
    · exact brace_free_append (brace_free_append (brace_free_append
        (brace_free_append (by decide) horg) (by decide)) hpn) (by decide)
  · refine ⟨"/projects/" ++ c.organization ++ "/" ++ pn ++ "/jobs/" ++ jid,
      ?_, ?_⟩
    · simp [PollinationClient.get_job, fm_project_job_by_id]
    · exact brace_free_append (brace_free_append (brace_free_append
        (brace_free_append (brace_free_append (by decide) horg) (by decide))
          hpn) (by decide)) hjid
  · refine ⟨"/projects/" ++ c.organization ++ "/" ++ pn ++ "/jobs", ?_, ?_⟩
    · simp [PollinationClient.list_jobs, fm_project_jobs]
    · exact brace_free_append (brace_free_append (brace_free_append
        (brace_free_append (by decide) horg) (by decide)) hpn) (by decide)
  · refine ⟨"/projects/" ++ c.organization ++ "/" ++ pn ++ "/jobs/" ++ jid
      ++ "/artifacts", ?_, ?_⟩
    · simp [PollinationClient.list_job_artifacts, fm_project_job_artifacts]
    · exact brace_free_append (brace_free_append (brace_free_append
        (brace_free_append (brace_free_append (brace_free_append (by decide)
          horg) (by decide)) hpn) (by decide)) hjid) (by decide)
  · refine ⟨"/projects/" ++ c.organization ++ "/" ++ pn ++ "/jobs/" ++ jid
      ++ "/artifacts/downloads" ++ "?path=" ++ ap, ?_, ?_⟩
    · simp [PollinationClient.get_job_artifact_link,
        fm_project_job_artifacts_download]
    · exact brace_free_append (brace_free_append (brace_free_append
        (brace_free_append (brace_free_append (brace_free_append
          (brace_free_append (brace_free_append (by decide) horg) (by decide))
            hpn) (by decide)) hjid) (by decide)) (by decide)) hap
  · refine ⟨"/projects/" ++ c.organization ++ "/" ++ pn ++ "/runs"
      ++ "?job_id=" ++ jid, ?_, ?_⟩
    · simp [PollinationClient.get_runs, fm_project_runs]
    · exact brace_free_append (brace_free_append (brace_free_append
        (brace_free_append (brace_free_append (brace_free_append (by decide)
          horg) (by decide)) hpn) (by decide)) (by decide)) hjid
  · refine ⟨"/projects/" ++ c.organization ++ "/" ++ pn ++ "/runs/" ++ rid
      ++ "/outputs/" ++ outn, ?_, ?_⟩
    · simp [PollinationClient.get_run_output, fm_project_run_output]
    · exact brace_free_append (brace_free_append (brace_free_append
        (brace_free_append (brace_free_append (brace_free_append
          (brace_free_append (by decide) horg) (by decide)) hpn) (by decide))
            hrid) (by decide)) houtn

/-- Witness for the route-substitution theorem at a concrete client and
concrete arguments. -/
theorem routes_substitute_all_parameters_witness :
    '{' ∉ cT.organization.data
    ∧ (∃ u, cT.get_job send200 "demo" "j1" = some (cT.get send200 u)
        ∧ '{' ∉ u.data)
    ∧ (∃ u, cT.get_run_output send200 "demo" "r1" "res"
          = some (cT.get send200 u) ∧ '{' ∉ u.data) := by
  have h := routes_substitute_all_parameters cT send200 fsT "demo" "j1" "r1"
    "res" "a.zip" ⟨"good-project", "desc", false⟩
    ⟨"ladybug-tools", "daylight-factor", "0.5.6"⟩ ⟨"src", []⟩ ⟨"model.hbjson"⟩
    (by decide) (by decide) (by decide) (by decide) (by decide) (by decide)
  exact ⟨by decide, h.2.2.2.2.2.1, h.2.2.2.2.2.2.2.2.2.2⟩

/-!
### The polling loop
-/

lemma pollLoop_nonterminal (pn jid : String) (statuses : Nat → String) :
    ∀ r i, (∀ j, j < r → ¬ isTerminal (statuses (i + j))) →
      Main.pollLoop pn jid statuses i r
        = (Main.nonTermEvents pn jid r r, PollOutcome.exhausted) := by
  intro r
  induction r with
  | zero => intro i _; rfl
  | succ r ih =>
      intro i h
      have h0 : ¬ isTerminal (statuses i) := by
        have := h 0 (Nat.succ_pos r)
        simpa using this
      have hc : ¬ statuses i = "Completed" := fun hc => h0 (Or.inl hc)
      have hx : ¬ statuses i = "Cancelled" := fun hx => h0 (Or.inr hx)
      have ih' := ih (i + 1) (fun j hj => by
        have := h (j + 1) (Nat.succ_lt_succ hj)
        have e : i + (j + 1) = i + 1 + j := by omega
        rwa [e] at this)
      simp [Main.pollLoop, hc, hx, ih', Main.nonTermEvents]

lemma pollLoop_terminal (pn jid : String) (statuses : Nat → String) :
    ∀ k r i, k < r → isTerminal (statuses (i + k)) →
      (∀ j, j < k → ¬ isTerminal (statuses (i + j))) →
      Main.pollLoop pn jid statuses i r
        = (Main.nonTermEvents pn jid r k
            ++ [Event.getJobStatus pn jid,
                Event.println (if statuses (i + k) = "Completed"
                  then "Job finished!" else "Job cancelled!")],
           if statuses (i + k) = "Completed" then PollOutcome.completed
           else PollOutcome.cancelled) := by
  intro k
  induction k with
  | zero =>
      intro r i hk hterm _
      obtain ⟨r', rfl⟩ : ∃ s, r = s + 1 := ⟨r - 1, by omega⟩
      rcases hterm with hC | hX
      · simp only [Nat.add_zero] at hC
        simp [Main.pollLoop, hC, Main.nonTermEvents]
      · simp only [Nat.add_zero] at hX
        simp [Main.pollLoop, hX, Main.nonTermEvents]
  | succ k ih =>
      intro r i hk hterm hpre
      obtain ⟨r', rfl⟩ : ∃ s, r = s + 1 := ⟨r - 1, by omega⟩
      have h0 : ¬ isTerminal (statuses i) := by
        have := hpre 0 (Nat.succ_pos k)
        simpa using this
      have hc : ¬ statuses i = "Completed" := fun hc => h0 (Or.inl hc)
      have hx : ¬ statuses i = "Cancelled" := fun hx => h0 (Or.inr hx)
      have e : i + 1 + k = i + (k + 1) := by omega
      have ih' := ih r' (i + 1) (by omega)
        (by rwa [e]) (fun j hj => by
          have := hpre (j + 1) (Nat.succ_lt_succ hj)
          have e2 : i + (j + 1) = i + 1 + j := by omega
          rwa [e2] at this)
      rw [e] at ih'
      simp [Main.pollLoop, hc, hx, ih', Main.nonTermEvents]

lemma count_nonTermEvents_getJob (pn jid : String) :
    ∀ n r, (Main.nonTermEvents pn jid r n).count (Event.getJobStatus pn jid) = n := by
  intro n
  induction n with
  | zero => intro r; rfl
  | succ n ih =>
      intro r
      simp [Main.nonTermEvents, List.count_cons, List.count_append, ih]

lemma count_nonTermEvents_sleep (pn jid : String) :
    ∀ n r, (Main.nonTermEvents pn jid r n).count (Event.sleep 60) = n := by
  intro n
  induction n with
  | zero => intro r; rfl
  | succ n ih =>
      intro r
      simp [Main.nonTermEvents, Main.wait_sec, List.count_cons,
        List.count_append, ih]

/-- **C1.** The polling loop of `main.py`, for every sequence of job-status
responses: if some poll among the first 5 returns `'Completed'` or
`'Cancelled'` (the first doing so being poll `k`), the loop stops right after
that fetch — `k + 1` status requests in total, no sleep and no further
request after the terminal fetch; otherwise it performs exactly 5
status-check iterations, each followed by a 60-second sleep, and stops. -/
theorem pollLoop_five_attempts_or_immediate_stop
    (pn jid : String) (statuses : Nat → String) :
    ((∀ i, i < 5 → ¬ isTerminal (statuses i)) →
      Main.pollLoop pn jid statuses 0 Main.remaining_polls
        = (Main.nonTermEvents pn jid 5 5, PollOutcome.exhausted)
      ∧ (Main.pollLoop pn jid statuses 0 Main.remaining_polls).1.count
          (Event.getJobStatus pn jid) = 5
      ∧ (Main.pollLoop pn jid statuses 0 Main.remaining_polls).1.count
          (Event.sleep 60) = 5)
    ∧ (∀ k, k < 5 → isTerminal (statuses k) →
        (∀ i, i < k → ¬ isTerminal (statuses i)) →
        Main.pollLoop pn jid statuses 0 Main.remaining_polls
          = (Main.nonTermEvents pn jid 5 k
              ++ [Event.getJobStatus pn jid,
                  Event.println (if statuses k = "Completed"
                    then "Job finished!" else "Job cancelled!")],
             if statuses k = "Completed" then PollOutcome.completed
             else PollOutcome.cancelled)
        ∧ (Main.pollLoop pn jid statuses 0 Main.remaining_polls).1.count
            (Event.getJobStatus pn jid) = k + 1
        ∧ (Main.pollLoop pn jid statuses 0 Main.remaining_polls).1.count
            (Event.sleep 60) = k) := by
  constructor
  · intro h
    have heq := pollLoop_nonterminal pn jid statuses 5 0
      (fun j hj => by simpa using h j hj)
    refine ⟨heq, ?_, ?_⟩
    · rw [show Main.remaining_polls = 5 from rfl, heq]
      exact count_nonTermEvents_getJob pn jid 5 5
    · rw [show Main.remaining_polls = 5 from rfl, heq]
      exact count_nonTermEvents_sleep pn jid 5 5
  · intro k hk hterm hpre
    have heq := pollLoop_terminal pn jid statuses k 5 0 hk
      (by simpa using hterm) (fun j hj => by simpa using hpre j hj)
    simp only [Nat.zero_add] at heq
    refine ⟨heq, ?_, ?_⟩
    · rw [show Main.remaining_polls = 5 from rfl, heq]
      simp [List.count_append, List.count_cons,
        count_nonTermEvents_getJob pn jid k 5]
    · rw [show Main.remaining_polls = 5 from rfl, heq]
      simp [List.count_append, List.count_cons,
        count_nonTermEvents_sleep pn jid k 5]

/-- Witness for the polling-loop theorem: a never-terminal status sequence
runs all 5 iterations, and a sequence completing on the third poll stops
after 3 status requests. -/
theorem pollLoop_five_attempts_or_immediate_stop_witness :
    (Main.pollLoop "p" "j" statusesRun 0 Main.remaining_polls
       = (Main.nonTermEvents "p" "j" 5 5, PollOutcome.exhausted)
     ∧ (Main.pollLoop "p" "j" statusesRun 0 Main.remaining_polls).1.count
         (Event.getJobStatus "p" "j") = 5
     ∧ (Main.pollLoop "p" "j" statusesRun 0 Main.remaining_polls).1.count
         (Event.sleep 60) = 5)
    ∧ (Main.pollLoop "p" "j" statusesDone 0 Main.remaining_polls).1.count
        (Event.getJobStatus "p" "j") = 3 := by
  refine ⟨(pollLoop_five_attempts_or_immediate_stop "p" "j" statusesRun).1
    (by intro i _; simp [statusesRun, isTerminal]), ?_⟩
  have h := ((pollLoop_five_attempts_or_immediate_stop "p" "j" statusesDone).2
    2 (by omega) (by simp [statusesDone, isTerminal])
    (by intro i hi; interval_cases i <;> simp [statusesDone, isTerminal])).2.1
  exact h

/-!
### Payload serialisation
-/

lemma foldl_append_eq_map {α β : Type} (f : α → β) :
    ∀ (l : List α) (init : List β),
      l.foldl (fun acc x => acc ++ [f x]) init = init ++ l.map f := by
  intro l
  induction l with
  | nil => intro init; simp
  | cons x xs ih => intro init; simp [ih]

/-- **C4.** `Payload.Job.to_dict` keeps the `source` field under `'source'`
and rebuilds `'arguments'` as a list of lists mirroring the group structure
and order of `self.arguments`, with element `[i][j]` equal to
`self.arguments[i][j].to_dict()`; and the flat payloads (`Create`,
`RecipeFilter`, `Artifact`) serialise to exactly their
field-name-to-value mapping. -/
theorem payload_to_dict_shape (j : Payload.Job) (p : Payload.Create)
    (rf : Payload.RecipeFilter) (a : Payload.Artifact) :
    j.to_dict.lookup "source" = some (.str j.source)
    ∧ j.to_dict.lookup "arguments"
        = some (.arr (j.arguments.map
            (fun g => Json.arr (g.map (fun x => x.dictVal)))))
    ∧ p.to_dict = .obj [("name", .str p.name),
        ("description", .str p.description), ("public", .bool p.public)]
    ∧ rf.to_dict = .obj [("owner", .str rf.owner), ("name", .str rf.name),
        ("tag", .str rf.tag)]
    ∧ a.to_dict = .obj [("key", .str a.key)] := by
  have hfold : j.arguments.foldl
      (fun acc group =>
        acc ++ [Json.arr (group.foldl (fun g x => g ++ [x.dictVal]) [])]) []
      = j.arguments.map (fun g => Json.arr (g.map (fun x => x.dictVal))) := by
    have h1 := foldl_append_eq_map
      (fun group : List JobPathArgument =>
        Json.arr (group.foldl (fun g x => g ++ [x.dictVal]) [])) j.arguments []
    rw [h1]
    simp only [List.nil_append]
    refine List.map_congr_left ?_
    intro g _
    have h2 := foldl_append_eq_map (fun x : JobPathArgument => x.dictVal) g []
    rw [h2]
    simp
  refine ⟨?_, ?_, rfl, rfl, rfl⟩
  · simp [Payload.Job.to_dict, Payload.Job.asdict, Json.set, Json.lookup,
      List.lookup]
  · simp [Payload.Job.to_dict, Payload.Job.asdict, Json.set, Json.lookup,
      List.lookup, hfold]

/-!
### The artifact upload (`add_file_to_project`)
-/

lemma add_file_unfolded (c : PollinationClient) (send : Request → Response)
    (fs : String → Option String) (pn : String) (body : Payload.Artifact)
    (url : String) (fields : Json) (content : String)
    (hurl : (send (artifactsPostReq c pn body)).body.lookup "url"
      = some (.str url))
    (hfields : (send (artifactsPostReq c pn body)).body.lookup "fields"
      = some fields)
    (hfs : fs body.key = some content) :
    c.add_file_to_project send fs pn body
      = ([artifactsPostReq c pn body, storageReq body.key content url fields],
         if (send (storageReq body.key content url fields)).status_code = 204
         then .ok (some (send (storageReq body.key content url fields)))
         else raise_for_status (send (storageReq body.key content url fields))) := by
  unfold PollinationClient.add_file_to_project
  rw [fm_project_add_artifact]
  split
  next heq => cases heq
  next v heq =>
    injection heq with h
    subst h
    simp only [artifactsPostReq, artifactsEndpoint] at hurl hfields
    simp only [PollinationClient.post, Payload.Artifact.upload, storageReq,
      artifactsPostReq, artifactsEndpoint, hurl, hfields, hfs]

/-- **C2 counterexample.** At a concrete client, file system and network
oracle whose storage endpoint answers 200, the storage POST's status code is
not 204 and yet `add_file_to_project` raises nothing: it returns `None`
(`raise_for_status` only raises on 4xx/5xx), refuting the claim that any
non-204 status raises. -/
theorem add_file_no_raise_on_200 :
    PollinationClient.add_file_to_project cT send200 fsT "demo"
        { key := "model.hbjson" }
      = ([artifactsPostReq cT "demo" { key := "model.hbjson" },
          storageReq "model.hbjson" "filedata" storageUrl
            (Json.obj [("sig", Json.str "s")])], Except.ok none)
    ∧ (send200 (storageReq "model.hbjson" "filedata" storageUrl
        (Json.obj [("sig", Json.str "s")]))).status_code = 200
    ∧ ∀ e, (PollinationClient.add_file_to_project cT send200 fsT "demo"
        { key := "model.hbjson" }).2 ≠ Except.error e := by
  refine ⟨rfl, rfl, ?_⟩
  intro e h
  have h0 : (PollinationClient.add_file_to_project cT send200 fsT "demo"
      { key := "model.hbjson" }).2 = Except.ok none := rfl
  rw [h0] at h
  cases h

/-- **C2 (amended).** For every upload-storage response,
`add_file_to_project` returns that response when its status code is 204,
raises `HTTPStatusError` when the status code is a 4xx/5xx error, and for
any other status code returns `None` without raising (the behaviour of
`res.raise_for_status()` on a non-error status). -/
theorem add_file_raises_only_on_error_status (c : PollinationClient)
    (send : Request → Response) (fs : String → Option String)
    (pn : String) (body : Payload.Artifact)
    (url : String) (fields : Json) (content : String)
    (hurl : (send (artifactsPostReq c pn body)).body.lookup "url"
      = some (.str url))
    (hfields : (send (artifactsPostReq c pn body)).body.lookup "fields"
      = some fields)
    (hfs : fs body.key = some content) :
    ((send (storageReq body.key content url fields)).status_code = 204 →
       (c.add_file_to_project send fs pn body).2
         = .ok (some (send (storageReq body.key content url fields))))
    ∧ (400 ≤ (send (storageReq body.key content url fields)).status_code
        ∧ (send (storageReq body.key content url fields)).status_code < 600 →
       (c.add_file_to_project send fs pn body).2
         = .error ("HTTPStatusError "
             ++ toString (send (storageReq body.key content url fields)).status_code))
    ∧ ((send (storageReq body.key content url fields)).status_code ≠ 204 →
       ¬(400 ≤ (send (storageReq body.key content url fields)).status_code
          ∧ (send (storageReq body.key content url fields)).status_code < 600) →
       (c.add_file_to_project send fs pn body).2 = .ok none) := by
  have h := add_file_unfolded c send fs pn body url fields content hurl hfields hfs
  refine ⟨?_, ?_, ?_⟩
  · intro h204
    rw [h]
    simp [h204]
  · intro herr
    have hne : (send (storageReq body.key content url fields)).status_code ≠ 204 := by
      omega
    rw [h]
    simp [hne, raise_for_status, herr]
  · intro hne hok
    rw [h]
    simp [hne, raise_for_status, hok]

/-- Witness for the amended upload-status theorem: with the oracle whose
storage endpoint answers 204 the storage response is returned, and with the
one answering 500 an `HTTPStatusError` is raised. -/
theorem add_file_raises_only_on_error_status_witness :
    fsT "model.hbjson" = some "filedata"
    ∧ (PollinationClient.add_file_to_project cT send204 fsT "demo"
        { key := "model.hbjson" }).2
      = .ok (some (send204 (storageReq "model.hbjson" "filedata" storageUrl
          (Json.obj [("sig", Json.str "s")]))))
    ∧ (PollinationClient.add_file_to_project cT send500 fsT "demo"
        { key := "model.hbjson" }).2
      = .error "HTTPStatusError 500" :=
  ⟨rfl,
   (add_file_raises_only_on_error_status cT send204 fsT "demo"
      { key := "model.hbjson" } storageUrl (Json.obj [("sig", Json.str "s")])
      "filedata" rfl rfl rfl).1 rfl,
   (add_file_raises_only_on_error_status cT send500 fsT "demo"
      { key := "model.hbjson" } storageUrl (Json.obj [("sig", Json.str "s")])
      "filedata" rfl rfl rfl).2.1 (by constructor <;> decide)⟩

/-- **C5.** `add_file_to_project` is a two-step protocol: it issues exactly
the authenticated POST of the artifact payload to the project's artifacts
endpoint (carrying the client's headers), reads the signed `url` and the
form `fields` from that response's JSON, and then issues exactly one more
POST of the local file's content to that signed URL through a fresh HTTP
call that carries no headers at all. -/
theorem add_file_two_step_protocol (c : PollinationClient)
    (send : Request → Response) (fs : String → Option String)
    (pn : String) (body : Payload.Artifact)
    (url : String) (fields : Json) (content : String)
    (hurl : (send (artifactsPostReq c pn body)).body.lookup "url"
      = some (.str url))
    (hfields : (send (artifactsPostReq c pn body)).body.lookup "fields"
      = some fields)
    (hfs : fs body.key = some content) :
    (c.add_file_to_project send fs pn body).1
      = [artifactsPostReq c pn body, storageReq body.key content url fields]
    ∧ (artifactsPostReq c pn body).method = "POST"
    ∧ (artifactsPostReq c pn body).url = c.base_url ++ artifactsEndpoint c pn
    ∧ (artifactsPostReq c pn body).headers = c.headers
    ∧ (artifactsPostReq c pn body).jsonBody = some body.to_dict
    ∧ (storageReq body.key content url fields).method = "POST"
    ∧ (storageReq body.key content url fields).url = url
    ∧ (storageReq body.key content url fields).headers = []
    ∧ (storageReq body.key content url fields).formData = some fields
    ∧ (storageReq body.key content url fields).fileUpload
        = some (body.key, content) := by
  refine ⟨?_, rfl, rfl, rfl, rfl, rfl, rfl, rfl, rfl, rfl⟩
  rw [add_file_unfolded c send fs pn body url fields content hurl hfields hfs]

/-- Witness for the two-step upload theorem at the concrete 204 scenario. -/
theorem add_file_two_step_protocol_witness :
    fsT "model.hbjson" = some "filedata"
    ∧ (PollinationClient.add_file_to_project cT send204 fsT "demo"
        { key := "model.hbjson" }).1
      = [artifactsPostReq cT "demo" { key := "model.hbjson" },
         storageReq "model.hbjson" "filedata" storageUrl
           (Json.obj [("sig", Json.str "s")])]
    ∧ (storageReq "model.hbjson" "filedata" storageUrl
        (Json.obj [("sig", Json.str "s")])).headers = [] :=
  ⟨rfl,
   (add_file_two_step_protocol cT send204 fsT "demo" { key := "model.hbjson" }
      storageUrl (Json.obj [("sig", Json.str "s")]) "filedata"
      rfl rfl rfl).1,
   rfl⟩

/-!
### Client construction and headers
-/

lemma lookup_map_replace (k v : String) :
    ∀ hs : List (String × String), (hs.lookup k).isSome →
      (hs.map (fun p => if p.1 = k then (k, v) else p)).lookup k = some v := by
  intro hs
  induction hs with
  | nil => intro h; simp [List.lookup] at h
  | cons p t ih =>
      obtain ⟨a, b⟩ := p
      intro h
      by_cases hp : a = k
      · have hc : ((a, b) : String × String).1 = k := hp
        rw [List.map_cons, if_pos hc]
        simp [List.lookup]
      · have hk : k ≠ a := fun hh => hp hh.symm
        have hb : (k == a) = false := beq_eq_false_iff_ne.mpr hk
        have hc : ¬ ((a, b) : String × String).1 = k := hp
        rw [List.map_cons, if_neg hc]
        simp only [List.lookup, hb] at h ⊢
        exact ih h

lemma lookup_append_absent (k v : String) :
    ∀ hs : List (String × String), hs.lookup k = none →
      (hs ++ [(k, v)]).lookup k = some v := by
  intro hs
  induction hs with
  | nil => intro _; simp [List.lookup]
  | cons p t ih =>
      obtain ⟨a, b⟩ := p
      intro h
      by_cases hk : k = a
      · have hb : (k == a) = true := beq_iff_eq.mpr hk
        simp only [List.lookup, hb] at h
        cases h
      · have hb : (k == a) = false := beq_eq_false_iff_ne.mpr hk
        simp only [List.lookup, hb] at h
        rw [List.cons_append]
        simp only [List.lookup, hb]
        exact ih h

lemma lookup_headersSet (hs : List (String × String)) (k v : String) :
    (PollinationClient.headersSet hs k v).lookup k = some v := by
  unfold PollinationClient.headersSet
  split
  · exact lookup_map_replace k v hs (by assumption)
  · apply lookup_append_absent
    rw [← Option.not_isSome_iff_eq_none]
    assumption

lemma init_ok_elim (env : String → Option String) (kb : Option String)
    (kh : List (String × String)) (c : PollinationClient)
    (h : PollinationClient.init env kb kh = .ok c) :
    ∃ key org, env "POLLINATION_API_KEY" = some key
      ∧ env "POLLINATION_ORG" = some org
      ∧ c = { base_url := PollinationClient.apiBaseUrl,
              headers := PollinationClient.headersSet kh "x-pollination-token" key,
              organization := org } := by
  unfold PollinationClient.init at h
  rcases hK : env "POLLINATION_API_KEY" with _ | key
  · rw [hK] at h; cases h
  · rcases hO : env "POLLINATION_ORG" with _ | org
    · rw [hK, hO] at h; cases h
    · rw [hK, hO] at h
      injection h with h
      exact ⟨key, org, rfl, rfl, h.symm⟩

lemma headers_of_get_map {c : PollinationClient} {send : Request → Response}
    {f : String → String} {o : Option String} {req : Request} {res : Response}
    (h : o.map (fun e => c.get send (f e)) = some (req, res)) :
    req.headers = c.headers := by
  cases o with
  | none => cases h
  | some e =>
      injection h with h2
      simpa using congrArg (fun p => p.1.headers) h2.symm

lemma headers_of_post_map {c : PollinationClient} {send : Request → Response}
    {b : Json} {o : Option String} {req : Request} {res : Response}
    (h : o.map (fun e => c.post send e b) = some (req, res)) :
    req.headers = c.headers := by
  cases o with
  | none => cases h
  | some e =>
      injection h with h2
      simpa using congrArg (fun p => p.1.headers) h2.symm

/-- **C6.** Every request issued through a `PollinationClient`'s inherited
`get`/`post` (each endpoint method included, and the first request of
`add_file_to_project`, but not the separate storage upload) carries the
header `x-pollination-token` whose value is the `POLLINATION_API_KEY`
environment variable read at construction; every endpoint method sends
exactly the client's headers, unmodified. -/
theorem requests_carry_api_token
    (env : String → Option String) (kb : Option String)
    (kh : List (String × String)) (c : PollinationClient) (key : String)
    (send : Request → Response) (fs : String → Option String)
    (pn jid rid outn ap : String) (bodyC : Payload.Create)
    (bodyR : Payload.RecipeFilter) (bodyJ : Payload.Job)
    (bodyA : Payload.Artifact)
    (hinit : PollinationClient.init env kb kh = .ok c)
    (hkey : env "POLLINATION_API_KEY" = some key) :
    c.headers.lookup "x-pollination-token" = some key
    ∧ (∀ e, (c.get send e).1.headers = c.headers)
    ∧ (∀ e b, (c.post send e b).1.headers = c.headers)
    ∧ (∀ req res, c.get_organization send = some (req, res) →
        req.headers = c.headers)
    ∧ (∀ req res, c.create_project send bodyC = some (req, res) →
        req.headers = c.headers)
    ∧ (∀ req res, c.add_recipe_to_project send pn bodyR = some (req, res) →
        req.headers = c.headers)
    ∧ (∀ req, (c.add_file_to_project send fs pn bodyA).1.head? = some req →
        req.headers = c.headers)
    ∧ (∀ req res, c.create_job send pn bodyJ = some (req, res) →
        req.headers = c.headers)
    ∧ (∀ req res, c.get_job send pn jid = some (req, res) →
        req.headers = c.headers)
    ∧ (∀ req res, c.list_jobs send pn = some (req, res) →
        req.headers = c.headers)
    ∧ (∀ req res, c.list_job_artifacts send pn jid = some (req, res) →
        req.headers = c.headers)
    ∧ (∀ req res, c.get_job_artifact_link send pn jid ap = some (req, res) →
        req.headers = c.headers)
    ∧ (∀ req res, c.get_runs send pn jid = some (req, res) →
        req.headers = c.headers)
    ∧ (∀ req res, c.get_run_output send pn rid outn = some (req, res) →
        req.headers = c.headers) := by
  obtain ⟨key2, org, hK, hO, rfl⟩ := init_ok_elim env kb kh c hinit
  rw [hkey] at hK
  injection hK with hk2
  subst hk2
  refine ⟨lookup_headersSet kh "x-pollination-token" key, fun e => rfl,
    fun e b => rfl, ?_, ?_, ?_, ?_, ?_, ?_, ?_, ?_, ?_, ?_, ?_⟩
  · intro req res h
    unfold PollinationClient.get_organization at h
    exact headers_of_get_map h
  · intro req res h
    unfold PollinationClient.create_project at h
    exact headers_of_post_map h
  · intro req res h
    unfold PollinationClient.add_recipe_to_project at h
    exact headers_of_post_map h
  · intro req h
    rw [add_file_trace_head _ send fs pn bodyA _ (fm_project_add_artifact _ pn)]
      at h
    injection h with h
    rw [← h]
    rfl
  · intro req res h
    unfold PollinationClient.create_job at h
    exact headers_of_post_map h
  · intro req res h
    unfold PollinationClient.get_job at h
    exact headers_of_get_map h
  · intro req res h
    unfold PollinationClient.list_jobs at h
    exact headers_of_get_map h
  · intro req res h
    unfold PollinationClient.list_job_artifacts at h
    exact headers_of_get_map h
  · intro req res h
    unfold PollinationClient.get_job_artifact_link at h
    exact headers_of_get_map h
  · intro req res h
    unfold PollinationClient.get_runs at h
    exact headers_of_get_map h
  · intro req res h
    unfold PollinationClient.get_run_output at h
    exact headers_of_get_map h

/-- Witness for the token-header theorem: the concretely constructed client
holds the token from the environment, and its `get_job` request carries it. -/
theorem requests_carry_api_token_witness :
    cT.headers.lookup "x-pollination-token" = some "tok"
    ∧ ∀ req res, cT.get_job send200 "demo" "j1" = some (req, res) →
        req.headers = cT.headers := by
  have h := requests_carry_api_token envT none [] cT "tok" send200 fsT
    "demo" "j1" "r1" "res" "a.zip" ⟨"good-project", "desc", false⟩
    ⟨"ladybug-tools", "daylight-factor", "0.5.6"⟩ ⟨"src", []⟩
    ⟨"model.hbjson"⟩ rfl rfl
  exact ⟨h.1, h.2.2.2.2.2.2.2.2.1⟩

/-- **C9.** If either `POLLINATION_API_KEY` or `POLLINATION_ORG` is absent
from the process environment, constructing a `PollinationClient` raises a
`KeyError`.  Construction has no access to the network oracle
(`init` takes no `send` argument), so the failure happens before any HTTP
request can be issued. -/
theorem init_fails_fast_on_missing_env (env : String → Option String)
    (kb : Option String) (kh : List (String × String))
    (h : env "POLLINATION_API_KEY" = none ∨ env "POLLINATION_ORG" = none) :
    PollinationClient.init env kb kh = .error "KeyError: POLLINATION_API_KEY"
    ∨ PollinationClient.init env kb kh = .error "KeyError: POLLINATION_ORG" := by
  unfold PollinationClient.init
  rcases hK : env "POLLINATION_API_KEY" with _ | key
  · left; rfl
  · rcases hO : env "POLLINATION_ORG" with _ | org
    · right; rfl
    · rcases h with h | h
      · rw [hK] at h; cases h
      · rw [hO] at h; cases h

/-- Witness: construction against the empty environment fails with a
`KeyError` for `POLLINATION_API_KEY`. -/
theorem init_fails_fast_on_missing_env_witness :
    PollinationClient.init envNone none []
        = .error "KeyError: POLLINATION_API_KEY"
    ∨ PollinationClient.init envNone none []
        = .error "KeyError: POLLINATION_ORG" :=
  init_fails_fast_on_missing_env envNone none [] (Or.inl rfl)

/-- **C10.** Whatever `base_url` (and headers) a caller passes through to the
`httpx.Client` superclass constructor, a successfully constructed
`PollinationClient` always has
`base_url = 'https://api.pollination.cloud'`: `__init__` unconditionally
overwrites the field after the superclass constructor runs. -/
theorem base_url_always_overwritten (env : String → Option String)
    (kb : Option String) (kh : List (String × String)) (c : PollinationClient)
    (h : PollinationClient.init env kb kh = .ok c) :
    c.base_url = "https://api.pollination.cloud" := by
  obtain ⟨key, org, _, _, rfl⟩ := init_ok_elim env kb kh c h
  rfl

/-- Witness: even when the caller passes an explicit different `base_url`
kwarg, the constructed client points at the fixed API host. -/
theorem base_url_always_overwritten_witness :
    PollinationClient.init envT (some "https://evil.example") [] = .ok cT
    ∧ cT.base_url = "https://api.pollination.cloud" :=
  ⟨rfl, base_url_always_overwritten envT (some "https://evil.example") [] cT rfl⟩

/-!
### Poll exhaustion and the download phase
-/

lemma mem_println_nonTermEvents (pn jid : String) :
    ∀ n r t, t < n →
      Event.println (toString (r - 1 - t) ++ " attempts remaining")
        ∈ Main.nonTermEvents pn jid r n := by
  intro n
  induction n with
  | zero => intro r t ht; omega
  | succ n ih =>
      intro r t ht
      cases t with
      | zero =>
          simp [Main.nonTermEvents]
      | succ t' =>
          have h := ih (r - 1) t' (by omega)
          have e : r - 1 - 1 - t' = r - 1 - (t' + 1) := by omega
          rw [e] at h
          simp only [Main.nonTermEvents, List.cons_append, List.nil_append]
          exact List.mem_cons_of_mem _ (List.mem_cons_of_mem _
            (List.mem_cons_of_mem _ h))

lemma exitScript_not_mem_nonTermEvents (pn jid : String) :
    ∀ n r, Event.exitScript ∉ Main.nonTermEvents pn jid r n := by
  intro n
  induction n with
  | zero => intro r; simp [Main.nonTermEvents]
  | succ n ih =>
      intro r
      simp [Main.nonTermEvents]
      exact ih (r - 1)

lemma processRun_ok_no_exit (c : PollinationClient) (send : Request → Response)
    (pn : String) (run : Json) (evs : List Event)
    (h : Main.processRun c send pn run = .ok evs) :
    Event.exitScript ∉ evs := by
  unfold Main.processRun at h
  repeat' split at h
  all_goals first
    | (injection h with h; subst h; simp)
    | cases h

lemma downloadRuns_no_exit (c : PollinationClient) (send : Request → Response)
    (pn : String) :
    ∀ l evs r, Main.downloadRuns c send pn l = (evs, r) →
      Event.exitScript ∉ evs := by
  intro l
  induction l with
  | nil =>
      intro evs r h
      injection h with h1 _
      subst h1
      simp
  | cons run rest ih =>
      intro evs r h
      unfold Main.downloadRuns at h
      split at h
      · injection h with h1 _
        subst h1
        simp
      · rcases hd : Main.downloadRuns c send pn rest with ⟨evs2, r2⟩
        rw [hd] at h
        injection h with h1 _
        subst h1
        rw [List.mem_append, not_or]
        constructor
        · exact processRun_ok_no_exit c send pn run _ (by assumption)
        · exact ih evs2 r2 hd

lemma scriptTail_no_exit (c : PollinationClient) (send : Request → Response)
    (pn jid : String) :
    Event.exitScript ∉ (Main.scriptTail c send pn jid).1 := by
  unfold Main.scriptTail
  split
  · simp
  · split
    · rcases hd : Main.downloadRuns c send pn _ with ⟨evs2, r2⟩
      simp only [hd]
      simp
      exact downloadRuns_no_exit c send pn _ evs2 r2 hd
    · simp

lemma pollAndDownload_falls_through (c : PollinationClient)
    (send : Request → Response) (pn jid : String) (statuses : Nat → String)
    (pollEvs : List Event) (outc : PollOutcome) (houtc : outc ≠ .cancelled)
    (hpoll : Main.pollLoop pn jid statuses 0 Main.remaining_polls
      = (pollEvs, outc)) :
    Main.pollAndDownload c send pn jid statuses
      = (pollEvs ++ (Main.scriptTail c send pn jid).1,
         (Main.scriptTail c send pn jid).2) := by
  unfold Main.pollAndDownload
  rw [hpoll]
  rcases hst : Main.scriptTail c send pn jid with ⟨evs, r⟩
  cases outc with
  | cancelled => exact absurd rfl houtc
  | completed => simp [hst]
  | exhausted => simp [hst]

/-- **C7.** When all 5 polling attempts see a non-terminal status, the
orchestration script raises nothing and does not abort: its trace is the 5
poll iterations (printing the remaining-attempt count 4, 3, 2, 1, 0) followed
by exactly the run-listing-and-download continuation, with no `exit()` in the
trace, and that continuation is identical to the one after a poll that ends
in `'Completed'`. -/
theorem poll_exhaustion_degrades_silently (c : PollinationClient)
    (send : Request → Response) (pn jid : String) (statuses : Nat → String)
    (hexh : ∀ i, i < 5 → ¬ isTerminal (statuses i)) :
    Main.pollAndDownload c send pn jid statuses
      = (Main.nonTermEvents pn jid 5 5 ++ (Main.scriptTail c send pn jid).1,
         (Main.scriptTail c send pn jid).2)
    ∧ (∀ t, t < 5 →
        Event.println (toString t ++ " attempts remaining")
          ∈ (Main.pollAndDownload c send pn jid statuses).1)
    ∧ Event.exitScript ∉ (Main.pollAndDownload c send pn jid statuses).1
    ∧ (∀ statuses2 k, k < 5 → statuses2 k = "Completed" →
        (∀ i, i < k → ¬ isTerminal (statuses2 i)) →
        ∃ evs, Main.pollAndDownload c send pn jid statuses2
          = (evs ++ (Main.scriptTail c send pn jid).1,
             (Main.scriptTail c send pn jid).2)) := by
  have hpoll := pollLoop_nonterminal pn jid statuses 5 0
    (fun j hj => by simpa using hexh j hj)
  have h1 := pollAndDownload_falls_through c send pn jid statuses
    (Main.nonTermEvents pn jid 5 5) PollOutcome.exhausted (by simp) hpoll
  refine ⟨h1, ?_, ?_, ?_⟩
  · intro t ht
    rw [h1]
    rw [List.mem_append]
    left
    have h := mem_println_nonTermEvents pn jid 5 5 (4 - t) (by omega)
    have e : 5 - 1 - (4 - t) = t := by omega
    rw [e] at h
    exact h
  · rw [h1]
    rw [List.mem_append, not_or]
    exact ⟨exitScript_not_mem_nonTermEvents pn jid 5 5,
      scriptTail_no_exit c send pn jid⟩
  · intro statuses2 k hk hC hpre
    have hterm : isTerminal (statuses2 k) := Or.inl hC
    have hpoll2 := pollLoop_terminal pn jid statuses2 k 5 0 hk
      (by simpa using hterm) (fun j hj => by simpa using hpre j hj)
    simp only [Nat.zero_add] at hpoll2
    rw [hC] at hpoll2
    simp only [if_pos rfl] at hpoll2
    exact ⟨_, pollAndDownload_falls_through c send pn jid statuses2 _
      PollOutcome.completed (by simp) hpoll2⟩

/-- Witness for the silent-exhaustion theorem at concrete inputs. -/
theorem poll_exhaustion_degrades_silently_witness :
    Main.pollAndDownload cT sendRuns "demo" "j1" statusesRun
      = (Main.nonTermEvents "demo" "j1" 5 5
          ++ (Main.scriptTail cT sendRuns "demo" "j1").1,
         (Main.scriptTail cT sendRuns "demo" "j1").2)
    ∧ Event.exitScript
        ∉ (Main.pollAndDownload cT sendRuns "demo" "j1" statusesRun).1 := by
  have h := poll_exhaustion_degrades_silently cT sendRuns "demo" "j1"
    statusesRun (by intro i _; simp [statusesRun, isTerminal])
  exact ⟨h.1, h.2.2.1⟩

lemma processRun_ok (c : PollinationClient) (send : Request → Response)
    (pn : String) (run st o : Json) (rest : List Json) (rid outn u : String)
    (hid : run.lookup "id" = some (.str rid))
    (hst : run.lookup "status" = some st)
    (houts : st.lookup "outputs" = some (.arr (o :: rest)))
    (hname : o.lookup "name" = some (.str outn))
    (hresp : (send (runOutputGetReq c pn rid outn)).body = .str u) :
    Main.processRun c send pn run
      = .ok [Event.getRunOutputCall pn rid outn,
             Event.saveFile u (rid ++ "-" ++ outn ++ ".zip")] := by
  unfold Main.processRun
  simp only [hid, hst, houts, hname]
  unfold PollinationClient.get_run_output
  rw [fm_project_run_output]
  simp only [runOutputGetReq] at hresp
  simp only [Option.map_some', PollinationClient.get, hresp]

lemma downloadRuns_ok (c : PollinationClient) (send : Request → Response)
    (pn : String) (R O U : Json → String) :
    ∀ l : List Json,
      (∀ run ∈ l,
        run.lookup "id" = some (.str (R run))
        ∧ (∃ st o rest, run.lookup "status" = some st
            ∧ st.lookup "outputs" = some (.arr (o :: rest))
            ∧ o.lookup "name" = some (.str (O run)))
        ∧ (send (runOutputGetReq c pn (R run) (O run))).body = .str (U run)) →
      Main.downloadRuns c send pn l
        = ((l.map (fun run =>
             [Event.getRunOutputCall pn (R run) (O run),
              Event.saveFile (U run) (R run ++ "-" ++ O run ++ ".zip")])).flatten,
           .ok ()) := by
  intro l
  induction l with
  | nil => intro _; rfl
  | cons run rest ih =>
      intro h
      obtain ⟨hid, ⟨st, o, rest2, hst, houts, hname⟩, hresp⟩ :=
        h run (List.mem_cons_self run rest)
      have hp := processRun_ok c send pn run st o rest2 (R run) (O run)
        (U run) hid hst houts hname hresp
      have hrec := ih (fun r hr => h r (List.mem_cons_of_mem _ hr))
      unfold Main.downloadRuns
      simp only [hp, hrec, List.map_cons]
      rfl

/-- **C8.** After the polling loop ends without an `exit()`, the script lists
the job's runs and, for every run in the response's `resources` (in order),
fetches a download URL for that run's first output and saves the retrieved
content to a local file named `{run_id}-{output_name}.zip`. -/
theorem script_downloads_every_run_output (c : PollinationClient)
    (send : Request → Response) (pn jid : String) (runsList : List Json)
    (R O U : Json → String)
    (hruns : (send (runsGetReq c pn jid)).body.lookup "resources"
      = some (.arr runsList))
    (hwf : ∀ run ∈ runsList,
      run.lookup "id" = some (.str (R run))
      ∧ (∃ st o rest, run.lookup "status" = some st
          ∧ st.lookup "outputs" = some (.arr (o :: rest))
          ∧ o.lookup "name" = some (.str (O run)))
      ∧ (send (runOutputGetReq c pn (R run) (O run))).body = .str (U run)) :
    Main.scriptTail c send pn jid
      = (Event.getRunsCall pn jid
          :: (runsList.map (fun run =>
               [Event.getRunOutputCall pn (R run) (O run),
                Event.saveFile (U run)
                  (R run ++ "-" ++ O run ++ ".zip")])).flatten,
         .ok ()) := by
  unfold Main.scriptTail
  unfold PollinationClient.get_runs
  rw [fm_project_runs]
  simp only [runsGetReq] at hruns
  simp only [Option.map_some', PollinationClient.get, hruns]
  rw [downloadRuns_ok c send pn R O U runsList hwf]

/-- Witness for the run-download theorem at the concrete single-run scenario. -/
theorem script_downloads_every_run_output_witness :
    Main.scriptTail cT sendRuns "demo" "j1"
      = (Event.getRunsCall "demo" "j1"
          :: (([runT] : List Json).map (fun run =>
               [Event.getRunOutputCall "demo" (ridT run) (outnT run),
                Event.saveFile (urlT run)
                  (ridT run ++ "-" ++ outnT run ++ ".zip")])).flatten,
         .ok ()) := by
  refine script_downloads_every_run_output cT sendRuns "demo" "j1" [runT]
    ridT outnT urlT rfl ?_
  intro run hr
  rw [List.mem_singleton] at hr
  subst hr
  exact ⟨rfl, ⟨_, _, _, rfl, rfl, rfl⟩, rfl⟩
